import Mathlib

/-!
# nats-tail: the display engine

A shallow embedding of `nats-tail.go` (the `Engine` type, `NewDefaultEngine`,
`Engine.display` and `hashColor`) together with the parts of the Go standard
library that `display` calls: `strings.Repeat`, `hash/fnv` (32-bit FNV-1a),
`fmt` (the verbs used by the program and the handling of a format string that
has no operands), `log` (flags 0, as set by `main`) and `encoding/json`
(`Unmarshal` into a `map[string]interface{}`).

A Go `string` is a sequence of bytes; it is embedded as a list of naturals
below 256.  Go `int` values are embedded as `Int`.
-/

namespace NatsTail

/-! ## Go strings -/

/-- A Go string: its bytes, each a natural number below 256. -/
abbrev GoString := List Nat

/-- The rune U+FFFD that the `utf8` package reports for malformed input. -/
def runeError : Nat := 0xFFFD

/-- Go `utf8.EncodeRune` / `utf8.AppendRune`: the UTF-8 bytes of a rune; surrogates
and values above U+10FFFF are written as U+FFFD. -/
def encodeRune (r : Nat) : GoString :=
  if r ≤ 0x7F then [r]
  else if r ≤ 0x7FF then [0xC0 ||| (r >>> 6), 0x80 ||| (r &&& 0x3F)]
  else if r > 0x10FFFF ∨ (0xD800 ≤ r ∧ r ≤ 0xDFFF) then [0xEF, 0xBF, 0xBD]
  else if r ≤ 0xFFFF then
    [0xE0 ||| (r >>> 12), 0x80 ||| ((r >>> 6) &&& 0x3F), 0x80 ||| (r &&& 0x3F)]
  else
    [0xF0 ||| (r >>> 18), 0x80 ||| ((r >>> 12) &&& 0x3F), 0x80 ||| ((r >>> 6) &&& 0x3F),
      0x80 ||| (r &&& 0x3F)]

/-- The Go string written by a string literal of the program (its UTF-8 bytes). -/
def str (s : String) : GoString :=
  (s.data.map (fun c => encodeRune c.toNat)).flatten

/-- The table `first` of Go package `utf8`, for a lead byte of a multi-byte
sequence: the length of the sequence and the range accepted for the second
byte; `none` for a byte that cannot start a sequence. -/
def leadByte (p0 : Nat) : Option (Nat × Nat × Nat) :=
  if 0xC2 ≤ p0 ∧ p0 ≤ 0xDF then some (2, 0x80, 0xBF)
  else if p0 = 0xE0 then some (3, 0xA0, 0xBF)
  else if 0xE1 ≤ p0 ∧ p0 ≤ 0xEC then some (3, 0x80, 0xBF)
  else if p0 = 0xED then some (3, 0x80, 0x9F)
  else if 0xEE ≤ p0 ∧ p0 ≤ 0xEF then some (3, 0x80, 0xBF)
  else if p0 = 0xF0 then some (4, 0x90, 0xBF)
  else if 0xF1 ≤ p0 ∧ p0 ≤ 0xF3 then some (4, 0x80, 0xBF)
  else if p0 = 0xF4 then some (4, 0x80, 0x8F)
  else none

/-- A continuation byte, 0x80..0xBF. -/
def isCont (b : Nat) : Bool := 0x80 ≤ b && b ≤ 0xBF

/-- Go `utf8.DecodeRuneInString`: the first rune of a string and the number of
bytes it occupies; `(runeError, 1)` for a malformed sequence and
`(runeError, 0)` for the empty string. -/
def decodeRune : GoString → Nat × Nat
  | [] => (runeError, 0)
  | p0 :: rest =>
    if p0 < 0x80 then (p0, 1)
    else
      match leadByte p0 with
      | none => (runeError, 1)
      | some (sz, lo, hi) =>
        if rest.length + 1 < sz then (runeError, 1)
        else
          match rest with
          | [] => (runeError, 1)
          | b1 :: rest1 =>
            if b1 < lo ∨ hi < b1 then (runeError, 1)
            else if sz ≤ 2 then (((p0 &&& 0x1F) <<< 6) ||| (b1 &&& 0x3F), 2)
            else
              match rest1 with
              | [] => (runeError, 1)
              | b2 :: rest2 =>
                if !isCont b2 then (runeError, 1)
                else if sz ≤ 3 then
                  (((p0 &&& 0x0F) <<< 12) ||| ((b1 &&& 0x3F) <<< 6) ||| (b2 &&& 0x3F), 3)
                else
                  match rest2 with
                  | [] => (runeError, 1)
                  | b3 :: _ =>
                    if !isCont b3 then (runeError, 1)
                    else
                      (((p0 &&& 0x07) <<< 18) ||| ((b1 &&& 0x3F) <<< 12) |||
                        ((b2 &&& 0x3F) <<< 6) ||| (b3 &&& 0x3F), 4)

/-- The loop of Go `utf8.RuneCountInString`, with `skip` bytes of the current
rune still to pass over. -/
def runeCountFrom : Nat → GoString → Nat
  | _, [] => 0
  | 0, c :: rest => 1 + runeCountFrom ((decodeRune (c :: rest)).2 - 1) rest
  | k + 1, _ :: rest => runeCountFrom k rest

/-- Go `utf8.RuneCountInString`: the number of runes of a string, a malformed
byte counting as one rune. -/
def runeCount (s : GoString) : Nat := runeCountFrom 0 s

/-- Go `strings.Repeat(s, count)`: `count` copies of `s`; it panics (`none`)
when `count` is negative. -/
def stringsRepeat (s : GoString) (count : Int) : Option GoString :=
  if count < 0 then none else some (List.replicate count.toNat s).flatten

/-! ## hash/fnv -/

/-- The 32-bit FNV offset basis. -/
def offset32 : Nat := 2166136261

/-- The 32-bit FNV prime. -/
def prime32 : Nat := 16777619

/-- Go `fnv.New32a()`, `Write(data)`, `Sum32()`: each byte is xor-ed into the
hash, which is then multiplied by the prime in 32-bit arithmetic. -/
def fnv32a (data : GoString) : Nat :=
  data.foldl (fun hash c => ((hash ^^^ c) * prime32) % 2 ^ 32) offset32

/-! ## fmt: the verbs of the program -/

/-- The verb `%d` of package `fmt` on an unsigned operand: its decimal digits. -/
def fmtD (n : Nat) : GoString :=
  (Nat.toDigits 10 n).map Char.toNat

/-- The padding of `fmt` for a string operand with the flag `-` and width
`wid` (`padString`): the string, then spaces up to `wid` runes; a string of
`wid` runes or more is written whole. -/
def padRight (wid : Nat) (s : GoString) : GoString :=
  s ++ List.replicate (wid - runeCount s) 32

/-! ## fmt: a format string without operands

`display` hands its finished line to `log.Printf` as the format string, with no
operands.  What follows is `(*pp).doPrintf` of package `fmt` for an empty
operand list: the flags, widths and precisions of a verb are parsed and
dropped (there is no operand to apply them to), `%%` writes one `%`, and every
other verb writes a diagnostic. -/

/-- The flag loop of `doPrintf`: the bytes `#`, `0`, `+`, `-` and space after a
`%` are consumed. -/
def skipFlags : GoString → GoString
  | [] => []
  | c :: rest =>
    if c = 35 ∨ c = 48 ∨ c = 43 ∨ c = 45 ∨ c = 32 then skipFlags rest else c :: rest

/-- The loop of `parsenum`: decimal digits are accumulated into `num`; a number
that has grown beyond `1e6` makes `parsenum` give up and skip to the end of the
string. -/
def parsenumLoop : Nat → Bool → GoString → Nat × Bool × GoString
  | num, isnum, [] => (num, isnum, [])
  | num, isnum, c :: rest =>
    if 48 ≤ c ∧ c ≤ 57 then
      if num > 1000000 then (0, false, [])
      else parsenumLoop (num * 10 + (c - 48)) true rest
    else (num, isnum, c :: rest)

/-- Go `parsenum(s, start, end)` on the bytes from `start` to `end`: the number,
whether one was found, and the bytes that follow it. -/
def parsenum (s : GoString) : Nat × Bool × GoString :=
  parsenumLoop 0 false s

/-- The bytes before the first `]` of a string and the bytes after it; `none`
when the string has no `]`. -/
def splitAtClose : GoString → Option (GoString × GoString)
  | [] => none
  | c :: rest =>
    if c = 93 then some ([], rest)
    else
      match splitAtClose rest with
      | none => none
      | some (inner, after) => some (c :: inner, after)

/-- The method `argNumber` of `fmt` (with `parseArgNumber`) when there are no
operands: on a `[` the bracketed index is consumed, up to and including its
`]` (only the `[` when it has no `]` or fewer than three bytes remain).
The result is the remaining format, whether a well-formed index was found, and
whether a `[` was seen at all; with no operands every index is out of range, so
a `[` always clears `goodArgNum`. -/
def argNumber (s : GoString) : GoString × Bool × Bool :=
  match s with
  | 91 :: rest =>
    if s.length < 3 then (rest, false, true)
    else
      match splitAtClose rest with
      | none => (rest, false, true)
      | some (inner, after) =>
        let r := parsenum inner
        (after, r.2.1 && r.2.2.isEmpty, true)
  | _ => (s, false, false)

/-- The width of a verb: `*` asks for an operand that is not there and writes
`%!(BADWIDTH)`; otherwise digits are read by `parsenum`, and a width that
follows an index clears `goodArgNum`.  The result is the text written, the
remaining format, the new value of `afterIndex`, and whether `goodArgNum` was
cleared. -/
def parseWidth (s : GoString) (afterIndex : Bool) : GoString × GoString × Bool × Bool :=
  match s with
  | 42 :: rest => (str "%!(BADWIDTH)", rest, false, false)
  | _ =>
    let r := parsenum s
    ([], r.2.2, afterIndex, afterIndex && r.2.1)

/-- The precision of a verb, read when the next byte is a period: an index may follow
the period; `*` writes `%!(BADPREC)`; otherwise digits are read by `parsenum`.
The result is as for `parseWidth`. -/
def parsePrecision (s : GoString) (afterIndex : Bool) : GoString × GoString × Bool × Bool :=
  match s with
  | 46 :: rest =>
    let a := argNumber rest
    match a.1 with
    | 42 :: rest1 => (str "%!(BADPREC)", rest1, false, afterIndex || a.2.2)
    | _ => ([], (parsenum a.1).2.2, a.2.1, afterIndex || a.2.2)
  | _ => ([], s, afterIndex, false)

/-- One verb of `doPrintf` with no operands, started after its `%`: the text it
writes and the format that remains.  A format that ends inside the verb writes
`%!(NOVERB)`; `%%` writes `%`; after a bad index the verb `v` writes
`%!v(BADINDEX)`, and otherwise `%!v(MISSING)`, the operand being absent. -/
def doVerb (s : GoString) : GoString × GoString :=
  let s0 := skipFlags s
  let a := argNumber s0
  let w := parseWidth a.1 a.2.1
  let p := parsePrecision w.2.1 w.2.2.1
  let b := if p.2.2.1 then (p.2.1, false, false) else argNumber p.2.1
  let goodArgNum := !(a.2.2 || w.2.2.2 || p.2.2.2 || b.2.2)
  let out := w.1 ++ p.1
  match b.1 with
  | [] => (out ++ str "%!(NOVERB)", [])
  | c :: rest =>
    let d := if c < 0x80 then (c, 1) else decodeRune (c :: rest)
    let rest1 := (c :: rest).drop d.2
    if d.1 = 37 then (out ++ [37], rest1)
    else if !goodArgNum then (out ++ str "%!" ++ encodeRune d.1 ++ str "(BADINDEX)", rest1)
    else (out ++ str "%!" ++ encodeRune d.1 ++ str "(MISSING)", rest1)

/-- The loop of `doPrintf` with no operands, with `skip` bytes of the format
already consumed by the last verb: bytes other than `%` are copied, and a `%`
starts a verb. -/
def doPrintfFrom : Nat → GoString → GoString
  | _, [] => []
  | k + 1, _ :: rest => doPrintfFrom k rest
  | 0, c :: rest =>
    if c = 37 then
      let r := doVerb rest
      r.1 ++ doPrintfFrom (rest.length - r.2.length) rest
    else c :: doPrintfFrom 0 rest

/-- Go `fmt.Sprintf(format)` with no operands. -/
def sprintf0 (format : GoString) : GoString :=
  doPrintfFrom 0 format

/-! ## log -/

/-- The method `Output` of the standard logger with flags 0 and no name in front
(`main` calls `log.SetFlags(0)`): the text, with a newline added when it does not
end in one. -/
def logOutput (s : GoString) : GoString :=
  if s.getLast? = some 10 then s else s ++ [10]

/-- Go `log.Printf(format)` with no operands: what the logger writes. -/
def logPrintf (format : GoString) : GoString :=
  logOutput (sprintf0 format)

/-! ## encoding/json

`json.Unmarshal(data, &l)` for `l` of type `map[string]interface{}`: the
scanner of the package (`checkValid`, a machine that reads one byte at a time)
and the decoder that stores what was read.  The two passes of the package are
run here as one: each byte goes through the scanner, and a value is stored as
soon as the scanner has seen its last byte. -/

/-- The values that the decoder stores in an `interface{}`.  A number is a
`float64`; it is kept as the literal it was read from. -/
inductive GoValue where
  | nil
  | bool (b : Bool)
  | float64 (lit : GoString)
  | string (s : GoString)
  | slice (elems : List GoValue)
  | map (entries : List (GoString × GoValue))

/-- The errors of `json.Unmarshal`: a `SyntaxError` with its message, or an
`UnmarshalTypeError` naming the JSON value and the Go type it does not fit. -/
inductive JsonError where
  | syntaxError (msg : GoString)
  | unmarshalType (value : GoString) (goType : GoString)

/-- The method `Error` of the two error types. -/
def JsonError.Error : JsonError → GoString
  | .syntaxError msg => msg
  | .unmarshalType value goType =>
    str "json: cannot unmarshal " ++ value ++ str " into Go value of type " ++ goType

/-- The two lowercase hexadecimal digits of a byte. -/
def hex2 (c : Nat) : GoString :=
  ((Nat.toDigits 16 (c / 16)) ++ (Nat.toDigits 16 (c % 16))).map Char.toNat

/-- The function `quoteChar` of the scanner: a byte as it is shown in an error
message, between single quotes, through `strconv.Quote`. -/
def quoteChar (c : Nat) : GoString :=
  if c = 39 then [39, 92, 39, 39]
  else if c = 34 then [39, 34, 39]
  else
    let inner : GoString :=
      if c = 92 then [92, 92]
      else if (0x20 ≤ c ∧ c < 0x7F) ∨ (0xA1 ≤ c ∧ c ≤ 0xFF ∧ c ≠ 0xAD) then encodeRune c
      else if c = 7 then str "\\a"
      else if c = 8 then str "\\b"
      else if c = 12 then str "\\f"
      else if c = 10 then str "\\n"
      else if c = 13 then str "\\r"
      else if c = 9 then str "\\t"
      else if c = 11 then str "\\v"
      else if c < 0x20 ∨ c = 0x7F then str "\\x" ++ hex2 c
      else str "\\u00" ++ hex2 c
    [39] ++ inner ++ [39]

/-- The method `error` of the scanner: the syntax error for byte `c` met in
the given context. -/
def scanError (c : Nat) (context : String) : JsonError :=
  .syntaxError (str "invalid character " ++ quoteChar c ++ str " " ++ str context)

/-- The value of a hexadecimal digit, as in `getu4`. -/
def hexVal (c : Nat) : Option Nat :=
  if 48 ≤ c ∧ c ≤ 57 then some (c - 48)
  else if 97 ≤ c ∧ c ≤ 102 then some (c - 97 + 10)
  else if 65 ≤ c ∧ c ≤ 70 then some (c - 65 + 10)
  else none

/-- The function `getu4` of the decoder: the rune of a `\uXXXX` escape at the
start of the bytes; `none` where Go returns -1. -/
def getu4 : GoString → Option Nat
  | 92 :: 117 :: a :: b :: c :: d :: _ =>
    match hexVal a, hexVal b, hexVal c, hexVal d with
    | some a, some b, some c, some d => some (((a * 16 + b) * 16 + c) * 16 + d)
    | _, _, _, _ => none
  | _ => none

/-- Go `utf16.IsSurrogate`. -/
def isSurrogate (r : Nat) : Bool := 0xD800 ≤ r && r < 0xE000

/-- Go `utf16.DecodeRune`: the rune of a surrogate pair, U+FFFD when the two
halves are not a high and a low surrogate; `none` stands for the -1 of a
missing second escape. -/
def utf16DecodeRune (r1 : Nat) (r2 : Option Nat) : Nat :=
  match r2 with
  | some r2 =>
    if 0xD800 ≤ r1 ∧ r1 < 0xDC00 ∧ 0xDC00 ≤ r2 ∧ r2 < 0xE000 then
      (((r1 - 0xD800) <<< 10) ||| (r2 - 0xDC00)) + 0x10000
    else runeError
  | none => runeError

/-- The byte an escape other than `\u` stands for, in `unquoteBytes`. -/
def unescape (e : Nat) : Nat :=
  if e = 98 then 8
  else if e = 102 then 12
  else if e = 110 then 10
  else if e = 114 then 13
  else if e = 116 then 9
  else e

/-- The loop of `unquoteBytes` on the bytes between the quotes of a string
literal, with `skip` bytes already consumed: escapes are replaced by the bytes
they stand for, a `\u` surrogate pair is joined, a lone surrogate and malformed
UTF-8 become U+FFFD.  The scanner has accepted the literal beforehand, so a
backslash is always followed by a well-formed escape. -/
def unquoteFrom : Nat → GoString → GoString
  | _, [] => []
  | k + 1, _ :: rest => unquoteFrom k rest
  | 0, c :: rest =>
    if c = 92 then
      match rest with
      | [] => []
      | e :: _ =>
        if e = 117 then
          match getu4 (c :: rest) with
          | none => []
          | some rr =>
            if isSurrogate rr then
              let dec := utf16DecodeRune rr (getu4 (rest.drop 5))
              if dec ≠ runeError then encodeRune dec ++ unquoteFrom 11 rest
              else encodeRune runeError ++ unquoteFrom 5 rest
            else encodeRune rr ++ unquoteFrom 5 rest
        else unescape e :: unquoteFrom 1 rest
    else if c < 0x80 then c :: unquoteFrom 0 rest
    else
      let d := decodeRune (c :: rest)
      encodeRune d.1 ++ unquoteFrom (d.2 - 1) rest

/-- The function `unquote` of the decoder, on the bytes between the quotes. -/
def unquote (s : GoString) : GoString := unquoteFrom 0 s

/-- The number written by a run of decimal digits. -/
def digitsVal (ds : GoString) : Nat :=
  ds.foldl (fun n c => n * 10 + (c - 48)) 0

/-- Whether `strconv.ParseFloat(lit, 64)` reports a range error on a JSON
number literal: the number, taken exactly, is at least `2^1024 - 2^970` in
absolute value, and so rounds to an infinity. -/
def float64Overflows (lit : GoString) : Bool :=
  let body := if lit.head? = some 45 then lit.tail else lit
  let mant := body.takeWhile (fun c => c != 101 && c != 69)
  let expo := (body.dropWhile (fun c => c != 101 && c != 69)).tail
  let whole := mant.takeWhile (fun c => c != 46)
  let frac := (mant.dropWhile (fun c => c != 46)).tail
  let m := digitsVal (whole ++ frac)
  let e : Int :=
    match expo with
    | 45 :: ds => -(digitsVal ds : Int) - frac.length
    | 43 :: ds => (digitsVal ds : Int) - frac.length
    | ds => (digitsVal ds : Int) - frac.length
  let limit := 2 ^ 1024 - 2 ^ 970
  if 0 ≤ e then limit ≤ m * 10 ^ e.toNat else limit * 10 ^ (-e).toNat ≤ m

/-- The step function the scanner is in (`stateBeginValue`, `stateInString`,
`state0`, ... of the package).  `inStringEscU seen` has read `seen` of the four
hexadecimal digits; `inLiteral name expect value` is inside `true`, `false` or
`null`, with the bytes `expect` still to come. -/
inductive Step where
  | beginValue
  | beginValueOrEmpty
  | beginString
  | beginStringOrEmpty
  | endValue
  | endTop
  | inString
  | inStringEsc
  | inStringEscU (seen : Nat)
  | neg
  | num1
  | num0
  | dot
  | dot0
  | expE
  | expSign
  | exp0
  | inLiteral (name : String) (expect : GoString) (value : GoValue)

/-- One entry of the scanner stack `parseState` (`parseObjectKey`,
`parseObjectValue`, `parseArrayValue`), with the part of the object or array
that the decoder has stored so far. -/
inductive Frame where
  | objectKey (entries : List (GoString × GoValue)) (key : Option GoString)
  | objectValue (entries : List (GoString × GoValue)) (key : GoString)
  | arrayValue (elems : List GoValue)

/-- The scanner and decoder between two bytes: the step function, the stack
(innermost first), the bytes of the literal being read, the finished top-level
value, and the first error saved by the decoder (a number out of range). -/
structure Decoder where
  step : Step
  frames : List Frame
  tok : GoString
  top : Option GoValue
  saved : Option JsonError

/-- The limit `maxNestingDepth` of the scanner. -/
def maxNestingDepth : Nat := 10000

/-- The scanner function `isSpace`. -/
def isSpace (c : Nat) : Bool :=
  c = 32 || c = 9 || c = 13 || c = 10

/-- A decimal digit. -/
def isDigit (c : Nat) : Bool := 48 ≤ c && c ≤ 57

/-- The step the scanner is left in when the stack has been popped
(`popParseState`): `stateEndTop` when it is empty. -/
def afterPop (frames : List Frame) : Step :=
  match frames with
  | [] => .endTop
  | _ => .endValue

/-- The decoder stores a finished value: in the object or array on top of the
stack, or as the top-level value. -/
def finish (d : Decoder) (v : GoValue) (step : Step) : Decoder :=
  match d.frames with
  | [] => { d with step := step, top := some v, tok := [] }
  | .objectValue entries key :: fs =>
    { d with step := step, frames := .objectValue (entries ++ [(key, v)]) key :: fs, tok := [] }
  | .arrayValue elems :: fs =>
    { d with step := step, frames := .arrayValue (elems ++ [v]) :: fs, tok := [] }
  | .objectKey entries key :: fs =>
    { d with step := step, frames := .objectKey entries key :: fs, tok := [] }

/-- The end of a string literal: an object key when the scanner is in
`parseObjectKey`, a string value otherwise. -/
def finishString (d : Decoder) : Decoder :=
  match d.frames with
  | .objectKey entries _ :: fs =>
    { d with step := .endValue, frames := .objectKey entries (some (unquote d.tok)) :: fs,
             tok := [] }
  | _ => finish d (.string (unquote d.tok)) .endValue

/-- The end of a number literal: the decoder converts it with
`strconv.ParseFloat` and saves the error of a literal out of range (the first
such error is kept). -/
def finishNumber (d : Decoder) : Decoder :=
  let lit := d.tok
  let d1 := finish d (.float64 lit) .endValue
  if float64Overflows lit ∧ d1.saved.isNone then
    { d1 with saved := some (.unmarshalType (str "number " ++ lit) (str "float64")) }
  else d1

/-- The scanner function `stateEndValue` (with `stateEndTop` and
`popParseState`), on byte `c` after a value. -/
def stateEndValue (d : Decoder) (c : Nat) : Except JsonError Decoder :=
  match d.frames with
  | [] =>
    if isSpace c then .ok { d with step := .endTop }
    else .error (scanError c "after top-level value")
  | .objectKey entries key :: fs =>
    if isSpace c then .ok { d with step := .endValue }
    else if c = 58 then
      .ok { d with step := .beginValue, frames := .objectValue entries (key.getD []) :: fs }
    else .error (scanError c "after object key")
  | .objectValue entries _ :: fs =>
    if isSpace c then .ok { d with step := .endValue }
    else if c = 44 then
      .ok { d with step := .beginString, frames := .objectKey entries none :: fs }
    else if c = 125 then .ok (finish { d with frames := fs } (.map entries) (afterPop fs))
    else .error (scanError c "after object key:value pair")
  | .arrayValue elems :: fs =>
    if isSpace c then .ok { d with step := .endValue }
    else if c = 44 then .ok { d with step := .beginValue }
    else if c = 93 then .ok (finish { d with frames := fs } (.slice elems) (afterPop fs))
    else .error (scanError c "after array element")

/-- The scanner function `pushParseState`: a new object or array is entered,
unless the stack would grow beyond `maxNestingDepth`. -/
def pushParseState (d : Decoder) (c : Nat) (f : Frame) (step : Step) :
    Except JsonError Decoder :=
  if d.frames.length + 1 ≤ maxNestingDepth then
    .ok { d with step := step, frames := f :: d.frames }
  else .error (scanError c "exceeded max depth")

/-- The scanner function `stateBeginValue`. -/
def stateBeginValue (d : Decoder) (c : Nat) : Except JsonError Decoder :=
  if isSpace c then .ok { d with step := .beginValue }
  else if c = 123 then pushParseState d c (.objectKey [] none) .beginStringOrEmpty
  else if c = 91 then pushParseState d c (.arrayValue []) .beginValueOrEmpty
  else if c = 34 then .ok { d with step := .inString, tok := [] }
  else if c = 45 then .ok { d with step := .neg, tok := [c] }
  else if c = 48 then .ok { d with step := .num0, tok := [c] }
  else if c = 116 then .ok { d with step := .inLiteral "true" (str "rue") (.bool true) }
  else if c = 102 then .ok { d with step := .inLiteral "false" (str "alse") (.bool false) }
  else if c = 110 then .ok { d with step := .inLiteral "null" (str "ull") .nil }
  else if 49 ≤ c ∧ c ≤ 57 then .ok { d with step := .num1, tok := [c] }
  else .error (scanError c "looking for beginning of value")

/-- The scanner function `stateBeginString`. -/
def stateBeginString (d : Decoder) (c : Nat) : Except JsonError Decoder :=
  if isSpace c then .ok { d with step := .beginString }
  else if c = 34 then .ok { d with step := .inString, tok := [] }
  else .error (scanError c "looking for beginning of object key string")

/-- The scanner functions `state0`, `stateDot0` and `stateE0` on a byte that
ends the number: the number is stored and the byte goes to `stateEndValue`. -/
def endNumber (d : Decoder) (c : Nat) : Except JsonError Decoder :=
  stateEndValue (finishNumber d) c

/-- The scanner function `state0` (after the digits of the integer part). -/
def state0 (d : Decoder) (c : Nat) : Except JsonError Decoder :=
  if c = 46 then .ok { d with step := .dot, tok := d.tok ++ [c] }
  else if c = 101 ∨ c = 69 then .ok { d with step := .expE, tok := d.tok ++ [c] }
  else endNumber d c

/-- The scanner function `stateESign`. -/
def stateESign (d : Decoder) (c : Nat) : Except JsonError Decoder :=
  if isDigit c then .ok { d with step := .exp0, tok := d.tok ++ [c] }
  else .error (scanError c "in exponent of numeric literal")

/-- One step of the scanner: the step function the scanner is in is applied to
byte `c`. -/
def scanStep (d : Decoder) (c : Nat) : Except JsonError Decoder :=
  match d.step with
  | .beginValue => stateBeginValue d c
  | .beginValueOrEmpty =>
    if isSpace c then .ok d
    else if c = 93 then stateEndValue d c
    else stateBeginValue d c
  | .beginString => stateBeginString d c
  | .beginStringOrEmpty =>
    if isSpace c then .ok d
    else if c = 125 then
      match d.frames with
      | .objectKey entries _ :: fs =>
        stateEndValue { d with frames := .objectValue entries [] :: fs } c
      | _ => stateEndValue d c
    else stateBeginString d c
  | .endValue => stateEndValue d c
  | .endTop =>
    if isSpace c then .ok d else .error (scanError c "after top-level value")
  | .inString =>
    if c = 34 then .ok (finishString d)
    else if c = 92 then .ok { d with step := .inStringEsc, tok := d.tok ++ [c] }
    else if c < 0x20 then .error (scanError c "in string literal")
    else .ok { d with tok := d.tok ++ [c] }
  | .inStringEsc =>
    if c = 98 ∨ c = 102 ∨ c = 110 ∨ c = 114 ∨ c = 116 ∨ c = 92 ∨ c = 47 ∨ c = 34 then
      .ok { d with step := .inString, tok := d.tok ++ [c] }
    else if c = 117 then .ok { d with step := .inStringEscU 0, tok := d.tok ++ [c] }
    else .error (scanError c "in string escape code")
  | .inStringEscU seen =>
    if (hexVal c).isSome then
      .ok { d with step := if seen < 3 then .inStringEscU (seen + 1) else .inString,
                   tok := d.tok ++ [c] }
    else .error (scanError c "in \\u hexadecimal character escape")
  | .neg =>
    if c = 48 then .ok { d with step := .num0, tok := d.tok ++ [c] }
    else if 49 ≤ c ∧ c ≤ 57 then .ok { d with step := .num1, tok := d.tok ++ [c] }
    else .error (scanError c "in numeric literal")
  | .num1 =>
    if isDigit c then .ok { d with tok := d.tok ++ [c] } else state0 d c
  | .num0 => state0 d c
  | .dot =>
    if isDigit c then .ok { d with step := .dot0, tok := d.tok ++ [c] }
    else .error (scanError c "after decimal point in numeric literal")
  | .dot0 =>
    if isDigit c then .ok { d with tok := d.tok ++ [c] }
    else if c = 101 ∨ c = 69 then .ok { d with step := .expE, tok := d.tok ++ [c] }
    else endNumber d c
  | .expE =>
    if c = 43 ∨ c = 45 then .ok { d with step := .expSign, tok := d.tok ++ [c] }
    else stateESign d c
  | .expSign => stateESign d c
  | .exp0 =>
    if isDigit c then .ok { d with tok := d.tok ++ [c] } else endNumber d c
  | .inLiteral name expect value =>
    match expect with
    | [] => stateEndValue d c
    | e :: es =>
      if c = e then
        match es with
        | [] => .ok (finish d value .endValue)
        | _ => .ok { d with step := .inLiteral name es value }
      else
        .error (scanError c
          ("in literal " ++ name ++ " (expecting " ++ String.mk [Char.ofNat 39, Char.ofNat e,
            Char.ofNat 39] ++ ")"))

/-- The scanner before the first byte (`reset`). -/
def Decoder.init : Decoder :=
  { step := .beginValue, frames := [], tok := [], top := none, saved := none }

/-- All bytes of the input go through the scanner, as in `checkValid`; the
first syntax error stops it. -/
def scanAll (d : Decoder) : GoString → Except JsonError Decoder
  | [] => .ok d
  | c :: rest =>
    match scanStep d c with
    | .error err => .error err
    | .ok d1 => scanAll d1 rest

/-- The method `eof` of the scanner: at the end of the input a space is fed to
the scanner unless the top-level value is already complete; an incomplete
value is an error. -/
def scanEof (d : Decoder) : Except JsonError Decoder :=
  match d.step with
  | .endTop => .ok d
  | _ =>
    match scanStep d 32 with
    | .error err => .error err
    | .ok d1 =>
      match d1.step with
      | .endTop => .ok d1
      | _ => .error (.syntaxError (str "unexpected end of JSON input"))

/-- The Go type of the map that `display` decodes into, as error messages name
it. -/
def mapTypeName : GoString := str "map[string]interface \x7b\x7d"

/-- Go `json.Unmarshal(data, &l)` for `l` a `map[string]interface{}`: the
entries stored in the map, in the order they were read (a later entry replaces
an earlier one with the same key), or the error returned.  JSON `null` stores
nothing; a top-level value that is not an object is an error, and so is a number
out of the range of `float64` anywhere in the object. -/
def jsonUnmarshal (data : GoString) : Except JsonError (List (GoString × GoValue)) :=
  match scanAll Decoder.init data with
  | .error err => .error err
  | .ok d =>
    match scanEof d with
    | .error err => .error err
    | .ok d1 =>
      match d1.top with
      | some (.map entries) =>
        match d1.saved with
        | some err => .error err
        | none => .ok entries
      | some (.slice _) => .error (.unmarshalType (str "array") mapTypeName)
      | some (.string _) => .error (.unmarshalType (str "string") mapTypeName)
      | some (.float64 _) => .error (.unmarshalType (str "number") mapTypeName)
      | some (.bool _) => .error (.unmarshalType (str "bool") mapTypeName)
      | some .nil => .ok []
      | none => .ok []

/-- The map index expression `l[key]` on the decoded map: the value of the last
entry stored under `key`, and `nil` when there is none. -/
def mapIndex (l : List (GoString × GoValue)) (key : GoString) : GoValue :=
  match (l.reverse.find? (fun kv => kv.1 == key)) with
  | some kv => kv.2
  | none => .nil

/-! ## fmt: an `interface{}` operand under the verb `s` -/

/-- The verb `%s` (`wid = 0`) or `%-30s` (`wid = 30`) of package `fmt` on a
value taken from the decoded map.  A string is written with its padding; the
`nil` of a missing key or a JSON `null` has no string form and is written as
`%!s(<nil>)`, unpadded.  An operand of another dynamic type (`bool`, `float64`,
a slice, a map) goes through the reflection printer of `fmt`, which is not part
of this embedding: its output is the parameter `fmtOther`. -/
def fmtS (fmtOther : Nat → GoValue → GoString) (wid : Nat) : GoValue → GoString
  | .string s => padRight wid s
  | .nil => str "%!s(<nil>)"
  | v => fmtOther wid v

/-! ## nats-tail.go -/

/-- The constant `defaultPaddingSize`. -/
def defaultPaddingSize : Int := 20

/-- The constant `defaultTimestampPaddingSize` (declared by the program; the
width of the time column is written out in the format `%-30s`). -/
def defaultTimestampPaddingSize : Nat := 30

/-- The type `Engine`. -/
structure Engine where
  format : GoString
  longestSubSize : Int
  showTimestamp : Bool
deriving DecidableEq, Repr

/-- The fields of `nats.Msg` that `display` reads. -/
structure Msg where
  Subject : GoString
  Data : GoString
deriving DecidableEq, Repr

/-- How a call of `display` ends.  `returned`: it returns, leaving the engine
in state `e`, having computed `padding` and written `written` through
`log.Printf`.  `fatal`: `log.Fatalf` writes its message and ends the process.
`panicked`: `strings.Repeat` was called with a negative count. -/
inductive Outcome where
  | returned (e : Engine) (padding : GoString) (written : List GoString)
  | fatal (message : GoString)
  | panicked
deriving DecidableEq, Repr

/-- The function `hashColor`: the FNV-1a hash of the string, reduced modulo 6,
picks the colour; `fmt.Sprintf("\033[1;3%dm%s\033[0m", i+1, s)`. -/
def hashColor (s : GoString) : GoString :=
  let i := fnv32a s % 6
  str "\x1b[1;3" ++ fmtD (i + 1) ++ str "m" ++ s ++ str "\x1b[0m"

/-- The function `NewDefaultEngine`. -/
def NewDefaultEngine (outputFormat : GoString) (showTimestamp : Bool) : Engine :=
  { longestSubSize := defaultPaddingSize,
    format := outputFormat,
    showTimestamp := showTimestamp }

/-- The method `Engine.display`.  The engine is passed in and the engine it
leaves is part of the outcome.  `subjectSize` lies between 0 and the largest
`int`, and so does `paddingSize` after the update of `longestSubSize`, so the
subtraction cannot wrap.  In the `docker-logs` case a decoding error assigns
`text` and returns at once, before `log.Printf` is reached. -/
def display (fmtOther : Nat → GoValue → GoString) (e : Engine) (m : Msg) : Outcome :=
  let subjectSize : Int := m.Subject.length
  let e := if subjectSize > e.longestSubSize then { e with longestSubSize := subjectSize } else e
  let paddingSize := e.longestSubSize - subjectSize
  match stringsRepeat (str " ") paddingSize with
  | none => .panicked
  | some padding =>
    if e.format = str "docker-logs" then
      match jsonUnmarshal m.Data with
      | .error err =>
        let _text := m.Subject ++ padding ++ str " | " ++ err.Error ++ str "\n"
        .returned e padding []
      | .ok l =>
        let text :=
          if e.showTimestamp then
            hashColor m.Subject ++ padding ++ str " | " ++
              fmtS fmtOther 30 (mapIndex l (str "time")) ++ str " -- " ++
              fmtS fmtOther 0 (mapIndex l (str "text")) ++ str "\n"
          else
            hashColor m.Subject ++ padding ++ str " | " ++
              fmtS fmtOther 0 (mapIndex l (str "text")) ++ str "\n"
        .returned e padding [logPrintf text]
    else if e.format = str "raw" then
      let text := hashColor m.Subject ++ padding ++ str " | " ++ m.Data ++ str "\n"
      .returned e padding [logPrintf text]
    else .fatal (logPrintf (str "Unsupported output format"))

/-- The messages of a subscription, displayed one after the other on the same
engine, as the callback registered by `main` does: the outcomes of the calls,
up to and including the first one that does not return. -/
def displayAll (fmtOther : Nat → GoValue → GoString) : Engine → List Msg → List Outcome
  | _, [] => []
  | e, m :: ms =>
    match display fmtOther e m with
    | .returned e1 padding written =>
      .returned e1 padding written :: displayAll fmtOther e1 ms
    | o => [o]

/-! ## Definitions used to state the properties -/

/-- A run of `n` spaces. -/
def spaces (n : Nat) : GoString := List.replicate n 32

/-- The engine that `display` leaves when it was entered with engine `e` and
message `m`: `longestSubSize` is raised to the length of the subject. -/
def Engine.after (e : Engine) (m : Msg) : Engine :=
  { e with longestSubSize := max e.longestSubSize m.Subject.length }

/-- The engine left by displaying the messages `ms` in order, starting from `e`. -/
def engineAfter (e : Engine) (ms : List Msg) : Engine :=
  ms.foldl Engine.after e

/-- The padding that `display` computes for message `m` on engine `e`. -/
def paddingFor (e : Engine) (m : Msg) : GoString :=
  spaces ((e.after m).longestSubSize - m.Subject.length).toNat

/-- The largest of `init` and the subject lengths of the messages. -/
def runningMax (init : Int) (ms : List Msg) : Int :=
  ms.foldl (fun a m => max a m.Subject.length) init

/-- The lines that a call of `display` wrote through `log.Printf`. -/
def Outcome.lines : Outcome → List GoString
  | .returned _ _ written => written
  | .fatal _ => []
  | .panicked => []

/-- The words of the specification for the time column: a string rendered in
exactly `n` columns, padded with spaces on the right when shorter and truncated
when longer. -/
def fitColumns (n : Nat) (s : GoString) : GoString :=
  (s ++ spaces n).take n

/-- A rendering of operands that are neither strings nor `nil`, for the
concrete inputs below, none of which has such an operand. -/
def noOther : Nat → GoValue → GoString := fun _ _ => []

/-! ## Lemmas on the library functions -/

theorem str_space : str " " = [32] := by decide

theorem stringsRepeat_space (n : Int) (h : 0 ≤ n) :
    stringsRepeat (str " ") n = some (spaces n.toNat) := by
  have h1 : ¬ n < 0 := not_lt.mpr h
  simp only [stringsRepeat, h1, if_false, str_space, spaces]
  congr 1
  induction n.toNat with
  | zero => rfl
  | succ k ih => simp [List.replicate_succ, ih]

theorem doPrintfFrom_of_no_percent (s : GoString) (h : 37 ∉ s) : doPrintfFrom 0 s = s := by
  induction s with
  | nil => rfl
  | cons c rest ih =>
    have hc : c ≠ 37 := fun hc => h (by simp [hc])
    have hr : 37 ∉ rest := fun hr => h (List.mem_cons_of_mem _ hr)
    simp [doPrintfFrom, hc, ih hr]

theorem logOutput_newline (s : GoString) : logOutput (s ++ [10]) = s ++ [10] := by
  simp [logOutput]

theorem logPrintf_of_no_percent (s : GoString) (h : 37 ∉ s) :
    logPrintf (s ++ str "\n") = s ++ str "\n" := by
  have hn : str "\n" = [10] := by decide
  have h1 : 37 ∉ s ++ [10] := by simp [h]
  rw [hn, logPrintf, sprintf0, doPrintfFrom_of_no_percent _ h1, logOutput_newline]

theorem fmtD_digit (n : Nat) (h : n < 10) : fmtD n = [48 + n] := by
  revert n
  decide

theorem hashColor_eq (s : GoString) :
    hashColor s = str "\x1b[1;3" ++ [48 + (fnv32a s % 6 + 1)] ++ str "m" ++ s ++ str "\x1b[0m" := by
  have h : fnv32a s % 6 + 1 < 10 := by omega
  simp only [hashColor, fmtD_digit _ h]

theorem hashColor_no_percent (s : GoString) (h : 37 ∉ s) : 37 ∉ hashColor s := by
  have h6 : fnv32a s % 6 < 6 := Nat.mod_lt _ (by decide)
  have e1 : str "\x1b[1;3" = [27, 91, 49, 59, 51] := by decide
  have e2 : str "m" = [109] := by decide
  have e3 : str "\x1b[0m" = [27, 91, 48, 109] := by decide
  rw [hashColor_eq, e1, e2, e3]
  simp [h]
  omega

theorem fnv32a_lt (s : GoString) : fnv32a s < 2 ^ 32 := by
  rcases List.eq_nil_or_concat s with h | ⟨t, c, h⟩
  · subst h
    decide
  · subst h
    simp only [fnv32a, List.concat_eq_append, List.foldl_append, List.foldl_cons,
      List.foldl_nil]
    exact Nat.mod_lt _ (Nat.two_pow_pos 32)

theorem fnv32a_vectors :
    fnv32a (str "") = 0x811c9dc5 ∧ fnv32a (str "a") = 0xe40c292c ∧
      fnv32a (str "foobar") = 0xbf9cf968 := by
  decide

theorem paddingSize_no_wrap (e : Engine) (m : Msg)
    (he : -(2 : Int) ^ 63 ≤ e.longestSubSize ∧ e.longestSubSize < 2 ^ 63)
    (hm : (m.Subject.length : Int) < 2 ^ 63) :
    0 ≤ (e.after m).longestSubSize - m.Subject.length ∧
      (e.after m).longestSubSize - m.Subject.length < 2 ^ 63 := by
  have h1 : (e.after m).longestSubSize = max e.longestSubSize m.Subject.length := rfl
  rcases max_cases e.longestSubSize (m.Subject.length : Int) with ⟨h, _⟩ | ⟨h, _⟩ <;>
    rw [h1, h] <;> omega

theorem skipFlags_suffix (s : GoString) : skipFlags s <:+ s := by
  induction s with
  | nil => exact List.suffix_refl _
  | cons c rest ih =>
    unfold skipFlags
    split
    · exact ih.trans (List.suffix_cons _ _)
    · exact List.suffix_refl _

theorem parsenumLoop_suffix (num : Nat) (isnum : Bool) (s : GoString) :
    (parsenumLoop num isnum s).2.2 <:+ s := by
  induction s generalizing num isnum with
  | nil => exact List.suffix_refl _
  | cons c rest ih =>
    unfold parsenumLoop
    split
    · split
      · exact List.nil_suffix
      · exact (ih _ _).trans (List.suffix_cons _ _)
    · exact List.suffix_refl _

theorem splitAtClose_suffix (s inner after : GoString)
    (h : splitAtClose s = some (inner, after)) : after <:+ s := by
  induction s generalizing inner after with
  | nil => simp [splitAtClose] at h
  | cons c rest ih =>
    unfold splitAtClose at h
    split at h
    · simp only [Option.some.injEq, Prod.mk.injEq] at h
      rw [← h.2]
      exact List.suffix_cons _ _
    · split at h
      · cases h
      · next i a heq =>
        simp only [Option.some.injEq, Prod.mk.injEq] at h
        rw [← h.2]
        exact (ih i a heq).trans (List.suffix_cons _ _)

theorem argNumber_suffix (s : GoString) : (argNumber s).1 <:+ s := by
  unfold argNumber
  split
  · next rest =>
    split
    · exact List.suffix_cons _ _
    · split
      · exact List.suffix_cons _ _
      · next inner after heq =>
        exact (splitAtClose_suffix rest inner after heq).trans (List.suffix_cons _ _)
  · exact List.suffix_refl _

theorem parseWidth_suffix (s : GoString) (afterIndex : Bool) :
    (parseWidth s afterIndex).2.1 <:+ s := by
  unfold parseWidth
  split
  · exact List.suffix_cons _ _
  · exact parsenumLoop_suffix _ _ _

theorem parsePrecision_suffix (s : GoString) (afterIndex : Bool) :
    (parsePrecision s afterIndex).2.1 <:+ s := by
  unfold parsePrecision
  split
  · next rest =>
    have ha := argNumber_suffix rest
    simp only []
    split
    · next rest1 heq =>
      have h1 : rest1 <:+ (argNumber rest).1 := by
        rw [heq]
        exact List.suffix_cons _ _
      exact (h1.trans ha).trans (List.suffix_cons _ _)
    · exact ((parsenumLoop_suffix _ _ _).trans ha).trans (List.suffix_cons _ _)
  · exact List.suffix_refl _

theorem doVerb_suffix (s : GoString) : (doVerb s).2 <:+ s := by
  have h0 := skipFlags_suffix s
  have h1 := argNumber_suffix (skipFlags s)
  have h2 := parseWidth_suffix (argNumber (skipFlags s)).1 (argNumber (skipFlags s)).2.1
  have h3 := parsePrecision_suffix
    (parseWidth (argNumber (skipFlags s)).1 (argNumber (skipFlags s)).2.1).2.1
    (parseWidth (argNumber (skipFlags s)).1 (argNumber (skipFlags s)).2.1).2.2.1
  have h03 := ((h3.trans h2).trans h1).trans h0
  unfold doVerb
  simp only []
  split
  · exact List.nil_suffix
  · next c rest heq =>
    have hb : (c :: rest) <:+ s := by
      rw [← heq]
      split
      · exact h03
      · exact (argNumber_suffix _).trans h03
    have hd : ∀ k, (c :: rest).drop k <:+ s := fun k => (List.drop_suffix k _).trans hb
    split_ifs <;> exact hd _

theorem doPrintfFrom_drop (k : Nat) (s : GoString) :
    doPrintfFrom k s = doPrintfFrom 0 (s.drop k) := by
  induction s generalizing k with
  | nil => simp [doPrintfFrom]
  | cons c rest ih =>
    cases k with
    | zero => rfl
    | succ k => simp only [doPrintfFrom, List.drop_succ_cons, ih k]

theorem sprintf0_percent (rest : GoString) :
    sprintf0 (37 :: rest) = (doVerb rest).1 ++ sprintf0 (doVerb rest).2 := by
  obtain ⟨pre, hpre⟩ := doVerb_suffix rest
  have hlen : rest.length - (doVerb rest).2.length = pre.length := by
    have h := congrArg List.length hpre
    rw [List.length_append] at h
    omega
  have hdrop : rest.drop pre.length = (doVerb rest).2 := by
    conv_lhs => rw [← hpre]
    exact List.drop_left _ _
  simp only [sprintf0, doPrintfFrom, if_true]
  rw [doPrintfFrom_drop, hlen, hdrop]

theorem sprintf0_literal (c : Nat) (rest : GoString) (h : c ≠ 37) :
    sprintf0 (c :: rest) = c :: sprintf0 rest := by
  simp [sprintf0, doPrintfFrom, h]

/-! ## Lemmas on `display` -/

theorem update_eq_after (e : Engine) (m : Msg) :
    (if (m.Subject.length : Int) > e.longestSubSize then
        { e with longestSubSize := (m.Subject.length : Int) } else e) = e.after m := by
  unfold Engine.after
  split
  · next h => rw [max_eq_right (le_of_lt h)]
  · next h => rw [max_eq_left (not_lt.mp h)]

theorem after_padding_nonneg (e : Engine) (m : Msg) :
    0 ≤ (e.after m).longestSubSize - m.Subject.length := by
  have : (m.Subject.length : Int) ≤ max e.longestSubSize m.Subject.length := le_max_right _ _
  simp only [Engine.after]
  omega

theorem display_eq (fmtOther : Nat → GoValue → GoString) (e : Engine) (m : Msg) :
    display fmtOther e m =
      if e.format = str "docker-logs" then
        match jsonUnmarshal m.Data with
        | .error _ => .returned (e.after m) (paddingFor e m) []
        | .ok l =>
          .returned (e.after m) (paddingFor e m)
            [logPrintf
              (if e.showTimestamp then
                hashColor m.Subject ++ paddingFor e m ++ str " | " ++
                  fmtS fmtOther 30 (mapIndex l (str "time")) ++ str " -- " ++
                  fmtS fmtOther 0 (mapIndex l (str "text")) ++ str "\n"
              else
                hashColor m.Subject ++ paddingFor e m ++ str " | " ++
                  fmtS fmtOther 0 (mapIndex l (str "text")) ++ str "\n")]
      else if e.format = str "raw" then
        .returned (e.after m) (paddingFor e m)
          [logPrintf (hashColor m.Subject ++ paddingFor e m ++ str " | " ++ m.Data ++ str "\n")]
      else .fatal (logPrintf (str "Unsupported output format")) := by
  have hf : (e.after m).format = e.format := rfl
  have ht : (e.after m).showTimestamp = e.showTimestamp := rfl
  unfold display
  simp only [update_eq_after, stringsRepeat_space _ (after_padding_nonneg e m), hf, ht]
  rfl

theorem display_of_valid (fmtOther : Nat → GoValue → GoString) (e : Engine) (m : Msg)
    (h : e.format = str "raw" ∨ e.format = str "docker-logs") :
    display fmtOther e m =
      .returned (e.after m) (paddingFor e m) (display fmtOther e m).lines := by
  have hne : str "raw" ≠ str "docker-logs" := by decide
  rw [display_eq]
  rcases h with h | h
  · simp only [h, hne, if_false, if_true, Outcome.lines]
  · simp only [h, if_true]
    cases jsonUnmarshal m.Data <;> rfl

theorem display_of_invalid (fmtOther : Nat → GoValue → GoString) (e : Engine) (m : Msg)
    (h1 : e.format ≠ str "raw") (h2 : e.format ≠ str "docker-logs") :
    display fmtOther e m = .fatal (str "Unsupported output format\n") := by
  have hl : logPrintf (str "Unsupported output format") = str "Unsupported output format\n" := by
    decide
  rw [display_eq, if_neg h2, if_neg h1, hl]

theorem display_returned_inv (fmtOther : Nat → GoValue → GoString) (e : Engine) (m : Msg)
    (e1 : Engine) (padding : GoString) (written : List GoString)
    (h : display fmtOther e m = .returned e1 padding written) :
    e1 = e.after m ∧ padding = paddingFor e m := by
  by_cases hv : e.format = str "raw" ∨ e.format = str "docker-logs"
  · rw [display_of_valid fmtOther e m hv] at h
    injection h with h1 h2 _
    exact ⟨h1.symm, h2.symm⟩
  · have h1 : e.format ≠ str "raw" := fun hh => hv (Or.inl hh)
    have h2 : e.format ≠ str "docker-logs" := fun hh => hv (Or.inr hh)
    rw [display_of_invalid fmtOther e m h1 h2] at h
    cases h

theorem display_ne_panicked (fmtOther : Nat → GoValue → GoString) (e : Engine) (m : Msg) :
    display fmtOther e m ≠ .panicked := by
  by_cases hv : e.format = str "raw" ∨ e.format = str "docker-logs"
  · rw [display_of_valid fmtOther e m hv]
    exact fun h => Outcome.noConfusion h
  · have h1 : e.format ≠ str "raw" := fun hh => hv (Or.inl hh)
    have h2 : e.format ≠ str "docker-logs" := fun hh => hv (Or.inr hh)
    rw [display_of_invalid fmtOther e m h1 h2]
    exact fun h => Outcome.noConfusion h

theorem engineAfter_format (e : Engine) (ms : List Msg) :
    (engineAfter e ms).format = e.format ∧
      (engineAfter e ms).showTimestamp = e.showTimestamp := by
  induction ms generalizing e with
  | nil => exact ⟨rfl, rfl⟩
  | cons a ms ih => exact ih (e.after a)

theorem engineAfter_longest (e : Engine) (ms : List Msg) :
    (engineAfter e ms).longestSubSize = runningMax e.longestSubSize ms := by
  induction ms generalizing e with
  | nil => rfl
  | cons a ms ih => exact ih (e.after a)

theorem runningMax_append (init : Int) (ms : List Msg) (m : Msg) :
    runningMax init (ms ++ [m]) = max (runningMax init ms) m.Subject.length := by
  simp [runningMax, List.foldl_append]

theorem le_runningMax (init : Int) (ms : List Msg) : init ≤ runningMax init ms := by
  induction ms generalizing init with
  | nil => exact le_refl _
  | cons a ms ih => exact le_trans (le_max_left _ _) (ih _)

theorem engineAfter_append (e : Engine) (ms : List Msg) (m : Msg) :
    engineAfter e (ms ++ [m]) = (engineAfter e ms).after m := by
  simp [engineAfter, List.foldl_append]

theorem displayAll_returned_inv (fmtOther : Nat → GoValue → GoString) (e : Engine)
    (ms : List Msg) (i : Nat) (e1 : Engine) (padding : GoString) (written : List GoString)
    (h : (displayAll fmtOther e ms)[i]? = some (.returned e1 padding written)) :
    ∃ m, ms[i]? = some m ∧ e1 = (engineAfter e (ms.take i)).after m ∧
      padding = paddingFor (engineAfter e (ms.take i)) m := by
  induction ms generalizing e i with
  | nil => simp [displayAll] at h
  | cons a ms ih =>
    cases hd : display fmtOther e a with
    | returned e2 p2 w2 =>
      obtain ⟨he2, hp2⟩ := display_returned_inv fmtOther e a e2 p2 w2 hd
      simp only [displayAll, hd] at h
      cases i with
      | zero =>
        simp only [List.getElem?_cons_zero, Option.some.injEq, Outcome.returned.injEq] at h
        refine ⟨a, by simp, ?_, ?_⟩
        · rw [← h.1, he2]; rfl
        · rw [← h.2.1, hp2]; rfl
      | succ j =>
        simp only [List.getElem?_cons_succ] at h
        obtain ⟨m, hm, h1, h2⟩ := ih e2 j h
        refine ⟨m, by simpa using hm, ?_, ?_⟩
        · rw [h1, he2]; rfl
        · rw [h2, he2]; rfl
    | fatal msg =>
      simp only [displayAll, hd] at h
      cases i with
      | zero => simp at h
      | succ j => simp at h
    | panicked =>
      simp only [displayAll, hd] at h
      cases i with
      | zero => simp at h
      | succ j => simp at h

theorem displayAll_of_valid (fmtOther : Nat → GoValue → GoString) (e : Engine)
    (ms : List Msg) (i : Nat) (m : Msg)
    (hv : e.format = str "raw" ∨ e.format = str "docker-logs") (hm : ms[i]? = some m) :
    ∃ written, (displayAll fmtOther e ms)[i]? =
      some (.returned ((engineAfter e (ms.take i)).after m)
        (paddingFor (engineAfter e (ms.take i)) m) written) := by
  induction ms generalizing e i with
  | nil => simp at hm
  | cons a ms ih =>
    obtain ⟨w0, hd⟩ : ∃ w0, display fmtOther e a = .returned (e.after a) (paddingFor e a) w0 :=
      ⟨_, display_of_valid fmtOther e a hv⟩
    cases i with
    | zero =>
      simp only [List.getElem?_cons_zero, Option.some.injEq] at hm
      subst hm
      refine ⟨w0, ?_⟩
      simp only [displayAll, hd, List.getElem?_cons_zero, List.take_zero]
      rfl
    | succ j =>
      simp only [List.getElem?_cons_succ] at hm
      obtain ⟨w, hw⟩ := ih (e.after a) j hv hm
      refine ⟨w, ?_⟩
      simp only [displayAll, hd, List.getElem?_cons_succ, List.take_succ_cons]
      exact hw

theorem paddingFor_length (e : Engine) (m : Msg) :
    (m.Subject.length : Int) + (paddingFor e m).length = (e.after m).longestSubSize := by
  have h := after_padding_nonneg e m
  simp only [paddingFor, spaces, List.length_replicate]
  omega

theorem runningMax_take_le (init : Int) (ms : List Msg) (i j : Nat) (h : i ≤ j) :
    runningMax init (ms.take i) ≤ runningMax init (ms.take j) := by
  have h1 : ms.take j = ms.take i ++ (ms.take j).drop i := by
    have h2 : (ms.take j).take i = ms.take i := by
      rw [List.take_take, min_eq_left h]
    rw [← h2, List.take_append_drop]
  rw [h1]
  simp only [runningMax, List.foldl_append]
  exact le_runningMax _ _

theorem take_succ_of_getElem (ms : List Msg) (i : Nat) (m : Msg) (h : ms[i]? = some m) :
    ms.take (i + 1) = ms.take i ++ [m] := by
  rw [List.take_succ, h]
  rfl

theorem display_raw_of_no_percent (fmtOther : Nat → GoValue → GoString) (e : Engine) (m : Msg)
    (hf : e.format = str "raw") (hs : 37 ∉ m.Subject) (hd : 37 ∉ m.Data) :
    display fmtOther e m = .returned (e.after m) (paddingFor e m)
      [hashColor m.Subject ++ paddingFor e m ++ str " | " ++ m.Data ++ str "\n"] := by
  have hne : str "raw" ≠ str "docker-logs" := by decide
  have hsep : str " | " = [32, 124, 32] := by decide
  have hc := hashColor_no_percent m.Subject hs
  have hp : 37 ∉ hashColor m.Subject ++ paddingFor e m ++ str " | " ++ m.Data := by
    simp [hc, hd, hsep, paddingFor, spaces]
  rw [display_eq, hf, if_neg hne, if_pos rfl, logPrintf_of_no_percent _ hp]

theorem docker_logs_ignores_time (fmtOther : Nat → GoValue → GoString) (e : Engine)
    (subject data1 data2 : GoString) (l1 l2 : List (GoString × GoValue))
    (hf : e.format = str "docker-logs") (hts : e.showTimestamp = false)
    (h1 : jsonUnmarshal data1 = .ok l1) (h2 : jsonUnmarshal data2 = .ok l2)
    (htext : mapIndex l1 (str "text") = mapIndex l2 (str "text")) :
    display fmtOther e ⟨subject, data1⟩ = display fmtOther e ⟨subject, data2⟩ := by
  rw [display_eq, display_eq]
  simp only [hf, hts, h1, h2, htext, if_true]
  rfl

/-! ## The claims -/

/-- C1. When the format of the engine is `raw` or `docker-logs` (whatever the
payload, so whether it parses or not), `display` returns, the engine it leaves
has `longestSubSize` equal to the maximum of the old value and the length of
the subject, and the padding it computed is exactly that many spaces less the
length of the subject: the count passed to `strings.Repeat` is never negative,
and the padding is empty when the subject is at least as long as the old
`longestSubSize`. -/
theorem display_longest_and_padding (fmtOther : Nat → GoValue → GoString) (e : Engine)
    (m : Msg) (h : e.format = str "raw" ∨ e.format = str "docker-logs") :
    ∃ e1 padding written,
      display fmtOther e m = .returned e1 padding written ∧
      e1.longestSubSize = max e.longestSubSize m.Subject.length ∧
      0 ≤ e1.longestSubSize - m.Subject.length ∧
      stringsRepeat (str " ") (e1.longestSubSize - m.Subject.length) = some padding ∧
      padding = spaces (e1.longestSubSize - m.Subject.length).toNat ∧
      (e.longestSubSize ≤ m.Subject.length → padding = []) := by
  refine ⟨e.after m, paddingFor e m, _, display_of_valid fmtOther e m h, rfl,
    after_padding_nonneg e m, stringsRepeat_space _ (after_padding_nonneg e m), rfl, ?_⟩
  intro hle
  have h0 : (e.after m).longestSubSize - m.Subject.length = 0 := by
    simp only [Engine.after, max_eq_right hle]
    omega
  simp [paddingFor, h0, spaces]

/-- C1, at a concrete input: the `docker-logs` engine of `NewDefaultEngine` and a
message with subject `foo` whose payload does not parse. -/
theorem display_longest_and_padding_witness :
    ((NewDefaultEngine (str "docker-logs") false).format = str "raw" ∨
      (NewDefaultEngine (str "docker-logs") false).format = str "docker-logs") ∧
    ∃ e1 padding written,
      display noOther (NewDefaultEngine (str "docker-logs") false)
          ⟨str "foo", str "\x7bnot valid\x7d"⟩ = .returned e1 padding written ∧
      e1.longestSubSize = max (20 : Int) 3 ∧
      0 ≤ e1.longestSubSize - 3 ∧
      stringsRepeat (str " ") (e1.longestSubSize - 3) = some padding ∧
      padding = spaces (e1.longestSubSize - 3).toNat ∧
      ((20 : Int) ≤ 3 → padding = []) :=
  ⟨Or.inr rfl,
    display_longest_and_padding noOther (NewDefaultEngine (str "docker-logs") false)
      ⟨str "foo", str "\x7bnot valid\x7d"⟩ (Or.inr rfl)⟩

/-- C2, as stated, fails on the first message: on the engine of
`NewDefaultEngine` a single subject `foo` of length 3 leaves `longestSubSize`
at 20, not at the maximum 3 of the lengths seen, and is padded with 17 spaces,
not with `3 - 3 = 0`. -/
theorem first_subject_longest_counterexample :
    displayAll noOther (NewDefaultEngine (str "raw") false) [⟨str "foo", str "hi"⟩] =
        [.returned ⟨str "raw", 20, false⟩ (spaces 17)
          [hashColor (str "foo") ++ spaces 17 ++ str " | hi\n"]] ∧
      runningMax 0 [⟨str "foo", str "hi"⟩] = 3 ∧
      (20 : Int) ≠ runningMax 0 [⟨str "foo", str "hi"⟩] ∧
      spaces 17 ≠ spaces (runningMax 0 [⟨str "foo", str "hi"⟩] - 3).toNat := by
  decide

/-- C2, amended.  On an engine made by `NewDefaultEngine` with format `raw` or
`docker-logs`, for any sequence of messages displayed in order, the call for
message `i` returns, the stored `longestSubSize` is then the maximum of 20 and
the subject lengths `L1..Li`, and the padding of message `i` is that maximum
less `Li` spaces, a number that is never negative. -/
theorem default_engine_longest (fmtOther : Nat → GoValue → GoString)
    (outputFormat : GoString) (showTimestamp : Bool) (ms : List Msg) (i : Nat) (m : Msg)
    (hv : outputFormat = str "raw" ∨ outputFormat = str "docker-logs")
    (hm : ms[i]? = some m) :
    ∃ e1 written,
      (displayAll fmtOther (NewDefaultEngine outputFormat showTimestamp) ms)[i]? =
        some (.returned e1
          (spaces (runningMax 20 (ms.take (i + 1)) - m.Subject.length).toNat) written) ∧
      e1.longestSubSize = runningMax 20 (ms.take (i + 1)) ∧
      0 ≤ runningMax 20 (ms.take (i + 1)) - m.Subject.length := by
  obtain ⟨w, hw⟩ :=
    displayAll_of_valid fmtOther (NewDefaultEngine outputFormat showTimestamp) ms i m hv hm
  have hl : ((engineAfter (NewDefaultEngine outputFormat showTimestamp) (ms.take i)).after
      m).longestSubSize = runningMax 20 (ms.take (i + 1)) := by
    rw [← engineAfter_append, ← take_succ_of_getElem ms i m hm, engineAfter_longest]
    rfl
  refine ⟨_, w, ?_, hl, ?_⟩
  · rw [hw, paddingFor, hl]
  · rw [← hl]
    exact after_padding_nonneg _ m

/-- C2 amended, at a concrete input: three subjects of lengths 3, 26 and 1; the
third is displayed with `longestSubSize` 26 and 25 spaces of padding. -/
theorem default_engine_longest_witness :
    (str "raw" = str "raw" ∨ str "raw" = str "docker-logs") ∧
    ([(⟨str "foo", str "a"⟩ : Msg), ⟨str "foo.bar.baz.qux.quux.corge", str "b"⟩,
        ⟨str "x", str "c"⟩][2]? = some ⟨str "x", str "c"⟩) ∧
    ∃ e1 written,
      (displayAll noOther (NewDefaultEngine (str "raw") false)
        [⟨str "foo", str "a"⟩, ⟨str "foo.bar.baz.qux.quux.corge", str "b"⟩,
          ⟨str "x", str "c"⟩])[2]? = some (.returned e1 (spaces 25) written) ∧
      e1.longestSubSize = 26 ∧ (0 : Int) ≤ 26 - 1 :=
  ⟨Or.inl rfl, rfl,
    default_engine_longest noOther (str "raw") false
      [⟨str "foo", str "a"⟩, ⟨str "foo.bar.baz.qux.quux.corge", str "b"⟩, ⟨str "x", str "c"⟩]
      2 ⟨str "x", str "c"⟩ (Or.inl rfl) rfl⟩

/-- C3, at the failing input: in raw format a payload `hi%d` is not written as
it stands.  `display` passes its finished line to `log.Printf` as the format
string, so the `%d` of the payload is read as a verb without operand and the line
written ends in `hi%!d(MISSING)`; the line of the claim, ending in `hi%d`, is not
what is written. -/
theorem raw_percent_payload_line :
    display noOther (NewDefaultEngine (str "raw") false) ⟨str "foo", str "hi%d"⟩ =
        .returned (NewDefaultEngine (str "raw") false) (spaces 17)
          [hashColor (str "foo") ++ spaces 17 ++ str " | hi%!d(MISSING)\n"] ∧
      display noOther (NewDefaultEngine (str "raw") false) ⟨str "foo", str "hi%d"⟩ ≠
        .returned (NewDefaultEngine (str "raw") false) (spaces 17)
          [hashColor (str "foo") ++ spaces 17 ++ str " | " ++ str "hi%d" ++ str "\n"] := by
  decide

/-- C4, on the code: in `docker-logs` format a payload that `json.Unmarshal`
rejects makes `display` return without having written anything; the error line
is formatted into `text` and dropped by the `return` that follows, so not one
line is written for the message.  The engine is updated as for any other
message, and the call returns. -/
theorem docker_logs_error_writes_nothing (fmtOther : Nat → GoValue → GoString) (e : Engine)
    (m : Msg) (err : JsonError) (hf : e.format = str "docker-logs")
    (herr : jsonUnmarshal m.Data = .error err) :
    display fmtOther e m = .returned (e.after m) (paddingFor e m) [] := by
  rw [display_eq, if_pos hf, herr]

/-- C4, at the failing input: the payload `{not valid}` of the specification. -/
theorem docker_logs_error_writes_nothing_witness :
    (NewDefaultEngine (str "docker-logs") false).format = str "docker-logs" ∧
    jsonUnmarshal (str "\x7bnot valid\x7d") =
      .error (scanError 110 "looking for beginning of object key string") ∧
    display noOther (NewDefaultEngine (str "docker-logs") false)
        ⟨str "foo", str "\x7bnot valid\x7d"⟩ =
      .returned (NewDefaultEngine (str "docker-logs") false) (spaces 17) [] :=
  ⟨rfl, rfl,
    docker_logs_error_writes_nothing noOther (NewDefaultEngine (str "docker-logs") false)
      ⟨str "foo", str "\x7bnot valid\x7d"⟩
      (scanError 110 "looking for beginning of object key string") rfl rfl⟩

/-- C5, as stated, fails for a time string longer than 30 columns: the payload
parses, with strings under `time` and `text`, the time has 35 characters, and
the line written carries all 35 of them; it is not the line of the claim, in
which the time is cut to 30 columns. -/
theorem long_time_not_truncated_counterexample :
    (∃ l, jsonUnmarshal (str
          "\x7b\"time\":\"2016-01-01T00:00:00.000000000+01:00\",\"text\":\"hello\"\x7d") = .ok l ∧
        fmtS noOther 0 (mapIndex l (str "time")) = str "2016-01-01T00:00:00.000000000+01:00" ∧
        fmtS noOther 0 (mapIndex l (str "text")) = str "hello") ∧
      display noOther (NewDefaultEngine (str "docker-logs") true)
          ⟨str "foo", str
            "\x7b\"time\":\"2016-01-01T00:00:00.000000000+01:00\",\"text\":\"hello\"\x7d"⟩ =
        .returned (NewDefaultEngine (str "docker-logs") true) (spaces 17)
          [hashColor (str "foo") ++ spaces 17 ++ str " | " ++
            str "2016-01-01T00:00:00.000000000+01:00" ++ str " -- " ++ str "hello" ++ str "\n"] ∧
      display noOther (NewDefaultEngine (str "docker-logs") true)
          ⟨str "foo", str
            "\x7b\"time\":\"2016-01-01T00:00:00.000000000+01:00\",\"text\":\"hello\"\x7d"⟩ ≠
        .returned (NewDefaultEngine (str "docker-logs") true) (spaces 17)
          [hashColor (str "foo") ++ spaces 17 ++ str " | " ++
            fitColumns 30 (str "2016-01-01T00:00:00.000000000+01:00") ++ str " -- " ++
            str "hello" ++ str "\n"] :=
  ⟨⟨_, rfl, rfl, rfl⟩, by decide, by decide⟩

/-- C5, amended.  In `docker-logs` format with `showTimestamp` set, for a payload
that parses as a JSON object with strings under `time` and `text`, and when
neither the subject nor the two strings hold a `%`, `display` writes the
colorized subject, the padding, ` | `, the time followed by spaces up to 30
runes (a time of 30 runes or more is written whole, not truncated), ` -- `, the
text and a newline. -/
theorem docker_logs_timestamp_line (fmtOther : Nat → GoValue → GoString) (e : Engine)
    (m : Msg) (l : List (GoString × GoValue)) (time text : GoString)
    (hf : e.format = str "docker-logs") (hts : e.showTimestamp = true)
    (hl : jsonUnmarshal m.Data = .ok l)
    (htime : mapIndex l (str "time") = .string time)
    (htext : mapIndex l (str "text") = .string text)
    (hs : 37 ∉ m.Subject) (h1 : 37 ∉ time) (h2 : 37 ∉ text) :
    display fmtOther e m = .returned (e.after m) (paddingFor e m)
      [hashColor m.Subject ++ paddingFor e m ++ str " | " ++ time ++
        spaces (30 - runeCount time) ++ str " -- " ++ text ++ str "\n"] := by
  have hsep : str " | " = [32, 124, 32] := by decide
  have hdash : str " -- " = [32, 45, 45, 32] := by decide
  have hc := hashColor_no_percent m.Subject hs
  have hp : 37 ∉ hashColor m.Subject ++ paddingFor e m ++ str " | " ++ time ++
      spaces (30 - runeCount time) ++ str " -- " ++ text := by
    simp [hc, h1, h2, hsep, hdash, paddingFor, spaces]
  rw [display_eq, if_pos hf, hl]
  simp only [hts, if_true, htime, htext, fmtS, padRight, List.replicate_zero, Nat.zero_sub,
    List.append_nil]
  have hrw : hashColor m.Subject ++ paddingFor e m ++ str " | " ++
      (time ++ List.replicate (30 - runeCount time) 32) ++ str " -- " ++ text ++ str "\n" =
      (hashColor m.Subject ++ paddingFor e m ++ str " | " ++ time ++
        spaces (30 - runeCount time) ++ str " -- " ++ text) ++ str "\n" := by
    simp [spaces]
  rw [hrw, logPrintf_of_no_percent _ hp]

/-- C5 amended, at the payload of the specification: the time of 20 characters
is followed by 10 spaces, then ` -- hello`. -/
theorem docker_logs_timestamp_line_witness :
    (NewDefaultEngine (str "docker-logs") true).format = str "docker-logs" ∧
    (NewDefaultEngine (str "docker-logs") true).showTimestamp = true ∧
    runeCount (str "2016-01-01T00:00:00Z") = 20 ∧
    display noOther (NewDefaultEngine (str "docker-logs") true)
        ⟨str "foo", str "\x7b\"time\":\"2016-01-01T00:00:00Z\",\"text\":\"hello\"\x7d"⟩ =
      .returned (NewDefaultEngine (str "docker-logs") true) (spaces 17)
        [hashColor (str "foo") ++ spaces 17 ++ str " | " ++ str "2016-01-01T00:00:00Z" ++
          spaces (30 - 20) ++ str " -- " ++ str "hello" ++ str "\n"] :=
  ⟨rfl, rfl, by decide,
    docker_logs_timestamp_line noOther (NewDefaultEngine (str "docker-logs") true)
      ⟨str "foo", str "\x7b\"time\":\"2016-01-01T00:00:00Z\",\"text\":\"hello\"\x7d"⟩
      [(str "time", .string (str "2016-01-01T00:00:00Z")), (str "text", .string (str "hello"))]
      (str "2016-01-01T00:00:00Z") (str "hello") rfl rfl rfl rfl rfl
      (by decide) (by decide) (by decide)⟩

/-- C6, at the failing input: in `docker-logs` format without timestamps the
payload with text `50% off` parses, and the line written does not end in the
text: the line goes to `log.Printf` as the format string, the `% o` of the text
is read as a verb without operand, and what is written ends in
`50%!o(MISSING)ff`. -/
theorem docker_logs_percent_text_line :
    (∃ l, jsonUnmarshal (str "\x7b\"text\":\"50% off\"\x7d") = .ok l ∧
        fmtS noOther 0 (mapIndex l (str "text")) = str "50% off") ∧
      display noOther (NewDefaultEngine (str "docker-logs") false)
          ⟨str "foo", str "\x7b\"text\":\"50% off\"\x7d"⟩ =
        .returned (NewDefaultEngine (str "docker-logs") false) (spaces 17)
          [hashColor (str "foo") ++ spaces 17 ++ str " | 50%!o(MISSING)ff\n"] ∧
      display noOther (NewDefaultEngine (str "docker-logs") false)
          ⟨str "foo", str "\x7b\"text\":\"50% off\"\x7d"⟩ ≠
        .returned (NewDefaultEngine (str "docker-logs") false) (spaces 17)
          [hashColor (str "foo") ++ spaces 17 ++ str " | " ++ str "50% off" ++ str "\n"] :=
  ⟨⟨_, rfl, rfl⟩, by decide, by decide⟩

/-- C7. For every string `s`, `hashColor s` is the escape `ESC[1;3`, one decimal
digit `d`, `m`, the string `s` unchanged, and the reset `ESC[0m`, where `d` is
the FNV-1a hash of the bytes of `s` modulo 6, plus 1, and is one of 1..6.  The
hash is the 32-bit FNV-1a: it is the offset basis 2166136261 on the empty
string, and a further byte `c` is xor-ed into the hash, which is then multiplied
by the prime 16777619 modulo `2^32`; it takes the reference values of FNV-1a on
the empty string, on `a` and on `foobar`, so that `a` is given the digit 5 and
`foo` the digit 4. -/
theorem hashColor_spec (s : GoString) :
    hashColor s =
        str "\x1b[1;3" ++ [48 + (fnv32a s % 6 + 1)] ++ str "m" ++ s ++ str "\x1b[0m" ∧
      1 ≤ fnv32a s % 6 + 1 ∧ fnv32a s % 6 + 1 ≤ 6 ∧ fnv32a s < 2 ^ 32 ∧
      fnv32a [] = 2166136261 ∧
      (∀ (t : GoString) (c : Nat),
        fnv32a (t ++ [c]) = ((fnv32a t ^^^ c) * 16777619) % 2 ^ 32) ∧
      fnv32a (str "") = 0x811c9dc5 ∧ fnv32a (str "a") = 0xe40c292c ∧
      fnv32a (str "foobar") = 0xbf9cf968 ∧
      hashColor (str "a") = str "\x1b[1;35ma\x1b[0m" ∧
      hashColor (str "foo") = str "\x1b[1;34mfoo\x1b[0m" := by
  refine ⟨hashColor_eq s, by omega, by omega, fnv32a_lt s, rfl, ?_, by decide, by decide,
    by decide, by decide, by decide⟩
  intro t c
  simp only [fnv32a, List.foldl_append, List.foldl_cons, List.foldl_nil, prime32]

/-- C8. `NewDefaultEngine` stores any format string as it is.  `display` ends
the process through `log.Fatalf` if and only if the format of the engine is
neither `raw` nor `docker-logs`; it never panics; and for such a format the
first message displayed, whatever its subject and payload, ends the process
with the message of `log.Fatalf` and without a line written for it. -/
theorem display_fatal_iff (fmtOther : Nat → GoValue → GoString) (outputFormat : GoString)
    (showTimestamp : Bool) (e : Engine) (m : Msg) (ms : List Msg) :
    (NewDefaultEngine outputFormat showTimestamp).format = outputFormat ∧
      ((∃ message, display fmtOther e m = .fatal message) ↔
        (e.format ≠ str "raw" ∧ e.format ≠ str "docker-logs")) ∧
      display fmtOther e m ≠ .panicked ∧
      ((outputFormat ≠ str "raw" ∧ outputFormat ≠ str "docker-logs") →
        displayAll fmtOther (NewDefaultEngine outputFormat showTimestamp) (m :: ms) =
            [.fatal (str "Unsupported output format\n")] ∧
          (display fmtOther (NewDefaultEngine outputFormat showTimestamp) m).lines = []) := by
  refine ⟨rfl, ⟨?_, ?_⟩, display_ne_panicked fmtOther e m, ?_⟩
  · rintro ⟨message, hmsg⟩
    refine ⟨fun h => ?_, fun h => ?_⟩
    · rw [display_of_valid fmtOther e m (Or.inl h)] at hmsg
      cases hmsg
    · rw [display_of_valid fmtOther e m (Or.inr h)] at hmsg
      cases hmsg
  · rintro ⟨h1, h2⟩
    exact ⟨_, display_of_invalid fmtOther e m h1 h2⟩
  · rintro ⟨h1, h2⟩
    have hd := display_of_invalid fmtOther (NewDefaultEngine outputFormat showTimestamp) m h1 h2
    refine ⟨?_, ?_⟩
    · simp only [displayAll, hd]
    · rw [hd]
      rfl

/-- C8, at the format `xml` of the specification: the first of two messages
ends the process, and no outcome follows it. -/
theorem display_fatal_iff_witness :
    (str "xml" ≠ str "raw" ∧ str "xml" ≠ str "docker-logs") ∧
    displayAll noOther (NewDefaultEngine (str "xml") false)
        [⟨str "foo", str "hello"⟩, ⟨str "bar", str "world"⟩] =
      [.fatal (str "Unsupported output format\n")] ∧
    (display noOther (NewDefaultEngine (str "xml") false) ⟨str "foo", str "hello"⟩).lines = [] :=
  ⟨⟨by decide, by decide⟩,
    (display_fatal_iff noOther (str "xml") false (NewDefaultEngine (str "xml") false)
      ⟨str "foo", str "hello"⟩ [⟨str "bar", str "world"⟩]).2.2.2 ⟨by decide, by decide⟩⟩

/-- C9. `NewDefaultEngine` returns the engine with `longestSubSize` 20 and the
format and `showTimestamp` it was given.  A call of `display` that returns
leaves `format` and `showTimestamp` as they were and `longestSubSize` no
smaller; over any sequence of calls, started from any engine, the engine after
call `i` has the format and `showTimestamp` of the start, and `longestSubSize`
after call `i` is at most `longestSubSize` after any later call `j`. -/
theorem engine_fields_invariant (fmtOther : Nat → GoValue → GoString)
    (outputFormat : GoString) (showTimestamp : Bool) (e : Engine) (ms : List Msg) (i j : Nat)
    (e1 e2 : Engine) (p1 p2 : GoString) (w1 w2 : List GoString)
    (hi : (displayAll fmtOther e ms)[i]? = some (.returned e1 p1 w1))
    (hj : (displayAll fmtOther e ms)[j]? = some (.returned e2 p2 w2)) (hij : i ≤ j) :
    NewDefaultEngine outputFormat showTimestamp = ⟨outputFormat, 20, showTimestamp⟩ ∧
      e1.format = e.format ∧ e1.showTimestamp = e.showTimestamp ∧
      e.longestSubSize ≤ e1.longestSubSize ∧ e1.longestSubSize ≤ e2.longestSubSize := by
  obtain ⟨m1, hm1, he1, _⟩ := displayAll_returned_inv fmtOther e ms i e1 p1 w1 hi
  obtain ⟨m2, hm2, he2, _⟩ := displayAll_returned_inv fmtOther e ms j e2 p2 w2 hj
  rw [← engineAfter_append, ← take_succ_of_getElem ms i m1 hm1] at he1
  rw [← engineAfter_append, ← take_succ_of_getElem ms j m2 hm2] at he2
  have hf := engineAfter_format e (ms.take (i + 1))
  refine ⟨rfl, by rw [he1]; exact hf.1, by rw [he1]; exact hf.2, ?_, ?_⟩
  · rw [he1, engineAfter_longest]
    exact le_runningMax _ _
  · rw [he1, he2, engineAfter_longest, engineAfter_longest]
    exact runningMax_take_le _ _ _ _ (Nat.succ_le_succ hij)

/-- C9, at a concrete input: subjects of lengths 3, 26 and 1 in raw format; the
engine after the first call and after the third. -/
theorem engine_fields_invariant_witness :
    (displayAll noOther (NewDefaultEngine (str "raw") true)
        [⟨str "foo", str "a"⟩, ⟨str "foo.bar.baz.qux.quux.corge", str "b"⟩,
          ⟨str "x", str "c"⟩])[0]? =
      some (.returned ⟨str "raw", 20, true⟩ (spaces 17)
        [hashColor (str "foo") ++ spaces 17 ++ str " | a\n"]) ∧
    (displayAll noOther (NewDefaultEngine (str "raw") true)
        [⟨str "foo", str "a"⟩, ⟨str "foo.bar.baz.qux.quux.corge", str "b"⟩,
          ⟨str "x", str "c"⟩])[2]? =
      some (.returned ⟨str "raw", 26, true⟩ (spaces 25)
        [hashColor (str "x") ++ spaces 25 ++ str " | c\n"]) ∧
    (0 ≤ 2) ∧
    NewDefaultEngine (str "raw") true = ⟨str "raw", 20, true⟩ ∧
    (⟨str "raw", 20, true⟩ : Engine).format = (NewDefaultEngine (str "raw") true).format ∧
    (⟨str "raw", 20, true⟩ : Engine).showTimestamp =
      (NewDefaultEngine (str "raw") true).showTimestamp ∧
    (NewDefaultEngine (str "raw") true).longestSubSize ≤
      (⟨str "raw", 20, true⟩ : Engine).longestSubSize ∧
    (⟨str "raw", 20, true⟩ : Engine).longestSubSize ≤
      (⟨str "raw", 26, true⟩ : Engine).longestSubSize :=
  ⟨by decide, by decide, by decide,
    engine_fields_invariant noOther (str "raw") true (NewDefaultEngine (str "raw") true)
      [⟨str "foo", str "a"⟩, ⟨str "foo.bar.baz.qux.quux.corge", str "b"⟩, ⟨str "x", str "c"⟩]
      0 2 ⟨str "raw", 20, true⟩ ⟨str "raw", 26, true⟩ (spaces 17) (spaces 25)
      [hashColor (str "foo") ++ spaces 17 ++ str " | a\n"]
      [hashColor (str "x") ++ spaces 25 ++ str " | c\n"] (by decide) (by decide) (by decide)⟩

/-- C10. On an engine made by `NewDefaultEngine`, for any sequence of messages,
the column at which ` | ` starts for message `i`, the length of its subject plus
the length of its padding, equals `longestSubSize` right after message `i` and
is at least 20; for the next message the column is no smaller, and it is the
same when the next subject is no longer than the `longestSubSize` reached by
message `i`. -/
theorem separator_column (fmtOther : Nat → GoValue → GoString) (outputFormat : GoString)
    (showTimestamp : Bool) (ms : List Msg) (i : Nat) (m1 : Msg) (e1 : Engine)
    (p1 : GoString) (w1 : List GoString)
    (hm1 : ms[i]? = some m1)
    (ho1 : (displayAll fmtOther (NewDefaultEngine outputFormat showTimestamp) ms)[i]? =
      some (.returned e1 p1 w1)) :
    (m1.Subject.length : Int) + p1.length = e1.longestSubSize ∧
      20 ≤ e1.longestSubSize ∧
      ∀ (m2 : Msg) (e2 : Engine) (p2 : GoString) (w2 : List GoString),
        ms[i + 1]? = some m2 →
        (displayAll fmtOther (NewDefaultEngine outputFormat showTimestamp) ms)[i + 1]? =
          some (.returned e2 p2 w2) →
        (m1.Subject.length : Int) + p1.length ≤ (m2.Subject.length : Int) + p2.length ∧
          ((m2.Subject.length : Int) ≤ e1.longestSubSize →
            (m2.Subject.length : Int) + p2.length = (m1.Subject.length : Int) + p1.length) := by
  obtain ⟨m, hm, he1, hp1⟩ := displayAll_returned_inv fmtOther _ ms i e1 p1 w1 ho1
  rw [hm1] at hm
  cases hm
  have hcol1 : (m1.Subject.length : Int) + p1.length = e1.longestSubSize := by
    rw [hp1, he1]
    exact paddingFor_length _ m1
  have hge : (20 : Int) ≤ e1.longestSubSize := by
    rw [he1, ← engineAfter_append, engineAfter_longest]
    exact le_runningMax _ _
  refine ⟨hcol1, hge, ?_⟩
  intro m2 e2 p2 w2 hm2 ho2
  obtain ⟨m, hm, he2, hp2⟩ := displayAll_returned_inv fmtOther _ ms (i + 1) e2 p2 w2 ho2
  rw [hm2] at hm
  cases hm
  have hcol2 : (m2.Subject.length : Int) + p2.length = e2.longestSubSize := by
    rw [hp2, he2]
    exact paddingFor_length _ m2
  have hstep : e2 = e1.after m2 := by
    rw [he2, he1, take_succ_of_getElem ms i m1 hm1, engineAfter_append]
  have hl : e2.longestSubSize = max e1.longestSubSize m2.Subject.length := by
    rw [hstep]
    rfl
  rw [hcol1, hcol2, hl]
  exact ⟨le_max_left _ _, fun h => max_eq_left h⟩

/-- C10, at a concrete input: subjects of lengths 3 and 5 in raw format, both
with the separator at column 20. -/
theorem separator_column_witness :
    ([(⟨str "foo", str "a"⟩ : Msg), ⟨str "hello", str "b"⟩][0]? = some ⟨str "foo", str "a"⟩) ∧
    (displayAll noOther (NewDefaultEngine (str "raw") false)
        [⟨str "foo", str "a"⟩, ⟨str "hello", str "b"⟩])[0]? =
      some (.returned ⟨str "raw", 20, false⟩ (spaces 17)
        [hashColor (str "foo") ++ spaces 17 ++ str " | a\n"]) ∧
    (displayAll noOther (NewDefaultEngine (str "raw") false)
        [⟨str "foo", str "a"⟩, ⟨str "hello", str "b"⟩])[1]? =
      some (.returned ⟨str "raw", 20, false⟩ (spaces 15)
        [hashColor (str "hello") ++ spaces 15 ++ str " | b\n"]) ∧
    (((str "foo").length : Int) + (spaces 17).length = 20) ∧
    (((str "hello").length : Int) + (spaces 15).length =
      ((str "foo").length : Int) + (spaces 17).length) :=
  have h := separator_column noOther (str "raw") false
    [⟨str "foo", str "a"⟩, ⟨str "hello", str "b"⟩] 0 ⟨str "foo", str "a"⟩
    ⟨str "raw", 20, false⟩ (spaces 17) [hashColor (str "foo") ++ spaces 17 ++ str " | a\n"]
    (by decide) (by decide)
  ⟨by decide, by decide, by decide, h.1,
    (h.2.2 ⟨str "hello", str "b"⟩ ⟨str "raw", 20, false⟩ (spaces 15)
      [hashColor (str "hello") ++ spaces 15 ++ str " | b\n"] (by decide) (by decide)).2
      (by decide)⟩

end NatsTail
